import Mathlib

/-!
# vgo: `modules/base/service/base_sys_user.go`

A shallow embedding of `BaseSysUserService` (the user resource service of the
admin backend) together with the properties of its hooks and of
`ServiceAdd` / `ServiceUpdate`.

Conventions of the embedding

* Go `int` values are `Int`; Go `uint` values are `Nat`.  Conversions between
  the two (`gconv.Uint`, `gconv.Int`) wrap at 64 bits.
* A request parameter read through `r.Get(key)` is an `Option`: `none` stands
  for a parameter for which `IsNil()` holds, `some v` carries the value the
  accessor used by the code (`.Int()`, `.String()`, `.Ints()`, `.Uint()`)
  yields.
* The tabular store is a pair of row lists; the cache is observed through the
  list of `Set` calls issued.  Store calls can fail: which ones do is given by
  a function `fails : StoreOp → Bool`, so that every error path of the code
  can be taken.
-/

namespace BaseSysUserService

/-! ## Errors -/

/-- The store calls whose error the service inspects. -/
inductive StoreOp where
  | userOne
  | roleArray
  | roleDelete
  | roleInsert
  | userUpdate
  | userInsert
deriving DecidableEq, Repr

/-- Errors returned by the service: `gerror.New text`, or an error handed back
by a store call. -/
inductive Error where
  | New (text : String)
  | store (op : StoreOp)
deriving DecidableEq, Repr

/-! ## `garray.IntArray` -/

namespace garray

/-- `IntArray.Get(index)`: the element at `index` and `true`, or `0` and
`false` when the index is out of range. -/
def Get (a : List Int) (index : Nat) : Int × Bool :=
  match a.get? index with
  | some x => (x, true)
  | none => (0, false)

/-- `IntArray.RemoveValue(value)`: searches the first index holding `value`
and removes the element at that index; later occurrences stay. -/
def RemoveValue (a : List Int) (value : Int) : List Int :=
  a.erase value

end garray

/-! ## `gmd5`: the MD5 digest, printed as lowercase hexadecimal -/

namespace gmd5

/-- The sine-derived additive constants of MD5's 64 steps. -/
def K : List Nat := [
  0xd76aa478, 0xe8c7b756, 0x242070db, 0xc1bdceee,
  0xf57c0faf, 0x4787c62a, 0xa8304613, 0xfd469501,
  0x698098d8, 0x8b44f7af, 0xffff5bb1, 0x895cd7be,
  0x6b901122, 0xfd987193, 0xa679438e, 0x49b40821,
  0xf61e2562, 0xc040b340, 0x265e5a51, 0xe9b6c7aa,
  0xd62f105d, 0x02441453, 0xd8a1e681, 0xe7d3fbc8,
  0x21e1cde6, 0xc33707d6, 0xf4d50d87, 0x455a14ed,
  0xa9e3e905, 0xfcefa3f8, 0x676f02d9, 0x8d2a4c8a,
  0xfffa3942, 0x8771f681, 0x6d9d6122, 0xfde5380c,
  0xa4beea44, 0x4bdecfa9, 0xf6bb4b60, 0xbebfbc70,
  0x289b7ec6, 0xeaa127fa, 0xd4ef3085, 0x04881d05,
  0xd9d4d039, 0xe6db99e5, 0x1fa27cf8, 0xc4ac5665,
  0xf4292244, 0x432aff97, 0xab9423a7, 0xfc93a039,
  0x655b59c3, 0x8f0ccc92, 0xffeff47d, 0x85845dd1,
  0x6fa87e4f, 0xfe2ce6e0, 0xa3014314, 0x4e0811a1,
  0xf7537e82, 0xbd3af235, 0x2ad7d2bb, 0xeb86d391]

/-- The per-step left-rotation amounts of MD5. -/
def S : List Nat := [
  7, 12, 17, 22, 7, 12, 17, 22, 7, 12, 17, 22, 7, 12, 17, 22,
  5, 9, 14, 20, 5, 9, 14, 20, 5, 9, 14, 20, 5, 9, 14, 20,
  4, 11, 16, 23, 4, 11, 16, 23, 4, 11, 16, 23, 4, 11, 16, 23,
  6, 10, 15, 21, 6, 10, 15, 21, 6, 10, 15, 21, 6, 10, 15, 21]

/-- Truncation to a 32-bit word. -/
def w32 (x : Nat) : Nat := x % 2 ^ 32

/-- Left rotation of a 32-bit word. -/
def rotl (x c : Nat) : Nat := w32 ((x <<< c) ||| (x >>> (32 - c)))

/-- Bitwise complement of a 32-bit word. -/
def not32 (x : Nat) : Nat := x ^^^ 0xffffffff

/-- The UTF-8 bytes of a string (`[]byte(s)`). -/
def bytesOf (s : String) : List Nat :=
  s.data.foldr (fun c acc => (String.utf8EncodeChar c).map UInt8.toNat ++ acc) []

/-- The `width` low bytes of `n`, least significant first. -/
def le (n width : Nat) : List Nat :=
  (List.range width).map (fun i => (n >>> (8 * i)) % 256)

/-- MD5 padding: a `0x80` byte, zeros up to 56 modulo 64, then the bit length
as eight little-endian bytes. -/
def pad (msg : List Nat) : List Nat :=
  let l := msg.length
  let total := ((l + 8) / 64 + 1) * 64
  msg ++ [0x80] ++ List.replicate (total - l - 9) 0 ++ le (8 * l % 2 ^ 64) 8

/-- The `g`-th little-endian 32-bit word of a 64-byte block. -/
def word (blk : List Nat) (g : Nat) : Nat :=
  blk.getD (4 * g) 0 + blk.getD (4 * g + 1) 0 * 2 ^ 8
    + blk.getD (4 * g + 2) 0 * 2 ^ 16 + blk.getD (4 * g + 3) 0 * 2 ^ 24

/-- The four chaining words of MD5. -/
structure St where
  a : Nat
  b : Nat
  c : Nat
  d : Nat

/-- One of the 64 steps of the MD5 compression function. -/
def step (blk : List Nat) (st : St) (i : Nat) : St :=
  let (f, g) :=
    if i < 16 then ((st.b &&& st.c) ||| (not32 st.b &&& st.d), i)
    else if i < 32 then ((st.d &&& st.b) ||| (not32 st.d &&& st.c), (5 * i + 1) % 16)
    else if i < 48 then (st.b ^^^ st.c ^^^ st.d, (3 * i + 5) % 16)
    else (st.c ^^^ (st.b ||| not32 st.d), (7 * i) % 16)
  let f := w32 (f + st.a + K.getD i 0 + word blk g)
  { a := st.d, d := st.c, c := st.b, b := w32 (st.b + rotl f (S.getD i 0)) }

/-- The MD5 compression of one 64-byte block into the chaining state. -/
def block (h : St) (blk : List Nat) : St :=
  let r := (List.range 64).foldl (step blk) h
  { a := w32 (h.a + r.a), b := w32 (h.b + r.b), c := w32 (h.c + r.c), d := w32 (h.d + r.d) }

/-- The first `n` 64-byte blocks of a byte list. -/
def chunks : Nat → List Nat → List (List Nat)
  | 0, _ => []
  | n + 1, bs => bs.take 64 :: chunks n (bs.drop 64)

/-- Lowercase hexadecimal rendering of a byte list (`fmt.Sprintf("%x", ...)`). -/
def hex (bs : List Nat) : String :=
  String.mk (bs.foldr (fun b acc => Nat.digitChar (b / 16) :: Nat.digitChar (b % 16) :: acc) [])

/-- `gmd5.EncryptString(s)`: the MD5 digest of the bytes of `s` in hexadecimal. -/
def EncryptString (s : String) : String :=
  let p := pad (bytesOf s)
  let h := (chunks (p.length / 64) p).foldl block
    { a := 0x67452301, b := 0xefcdab89, c := 0x98badcfe, d := 0x10325476 }
  hex (le h.a 4 ++ le h.b 4 ++ le h.c 4 ++ le h.d 4)

/-- `gmd5.MustEncryptString(s)`: `EncryptString`, which cannot fail on a string. -/
def MustEncryptString (s : String) : String := EncryptString s

/-- `gmd5.Encrypt(data)` for a string `data`; the error it returns is always
nil and is discarded by the caller. -/
def Encrypt (s : String) : String := EncryptString s

end gmd5

/-! ## `gconv` and Go integer arithmetic -/

/-- Wrap-around of a mathematical integer into the range of a 64-bit Go `int`. -/
def goInt (z : Int) : Int := (z + 9223372036854775808) % 18446744073709551616 - 9223372036854775808

/-- The conversion `gconv.Uint(v)` of an `int` value `v`: the 64-bit unsigned
conversion. -/
def gconv_Uint (v : Int) : Nat := (v % 18446744073709551616).toNat

/-- The conversion `gconv.Int(v)` of an unsigned stored value. -/
def gconv_Int (v : Nat) : Int := goInt v

/-- The conversion `gconv.Ints(vs)`: element-wise `gconv.Int`. -/
def gconv_Ints (vs : List Nat) : List Int := vs.map gconv_Int

/-! ## `gset`: sets, represented by duplicate-free lists -/

namespace gset

/-- `gset.NewFrom(items)`: the set of the items; each value is kept once. -/
def NewFrom (items : List Int) : List Int := items.dedup

/-- `s.Diff(o)`: the elements of `s` that are not in `o`. -/
def Diff (s o : List Int) : List Int := s.filter (fun x => decide (x ∉ o))

/-- `s.Size()`. -/
def Size (s : List Int) : Nat := s.length

end gset

/-! ## Delete hooks -/

/-- Outcome of `ModifyBefore`: the returned error and, when the hook called
`SetParam("ids", ...)`, the list it stored on the request. -/
structure BeforeResult where
  err : Option Error
  ids : Option (List Int)
deriving DecidableEq, Repr

/-- The fixed id of the superadmin (`superAdminId := 1`). -/
def superAdminId : Int := 1

/-- `ModifyBefore(ctx, method, param)` where `ids` is `gconv.Ints(param["ids"])`. -/
def ModifyBefore (method : String) (ids : List Int) : BeforeResult :=
  if method = "Delete" then
    let userIds := ids
    let (currentId, found) := garray.Get userIds 0
    if userIds.length = 1 ∧ found = true ∧ currentId = superAdminId then
      { err := some (Error.New "超级管理员不能删除"), ids := none }
    else
      let userIds := garray.RemoveValue userIds 1
      { err := none, ids := some userIds }
  else
    { err := none, ids := none }

/-- A row of the user-role association table. -/
structure UserRole where
  userId : Nat
  roleId : Nat
deriving DecidableEq, Repr

/-- `WhereIn("userId", ids).Delete()` on the association table: the rows whose
`userId` is one of `ids` are removed (an empty `ids` matches no row). -/
def WhereInUserIdDelete (ids : List Int) (tbl : List UserRole) : List UserRole :=
  tbl.filter (fun row => decide ((row.userId : Int) ∉ ids))

/-- `ModifyAfter(ctx, method, param)` where `ids` is `gconv.Ints(param["ids"])`;
the result is the association table after the hook (the hook always returns a
nil error and ignores the result of the delete). -/
def ModifyAfter (method : String) (ids : List Int) (tbl : List UserRole) : List UserRole :=
  if method = "Delete" then
    let userIds := garray.RemoveValue ids 1
    WhereInUserIdDelete userIds tbl
  else
    tbl


/-! ## `ServiceAdd` -/

/-- The request map read by `ServiceAdd`: the `password` parameter and the
other fields, which the function hands on untouched. -/
structure AddMap where
  password : Option String
  fields : List (String × String)
deriving DecidableEq, Repr

/-- Outcome of `ServiceAdd`: the map handed to `m.Data(reqmap).InsertAndGetId()`,
the returned `id` and the returned error. -/
structure AddResult where
  row : AddMap
  data : Option Int
  err : Option Error
deriving DecidableEq, Repr

/-- `ServiceAdd(ctx, req)`.  `inserted` is the answer of the store to the
insert: `some id` for the new row id, `none` for an error. -/
def ServiceAdd (reqmap : AddMap) (inserted : Option Int) : AddResult :=
  let reqmap :=
    match reqmap.password with
    | some password => { reqmap with password := some (gmd5.MustEncryptString password) }
    | none => reqmap
  match inserted with
  | none => { row := reqmap, data := none, err := some (Error.store StoreOp.userInsert) }
  | some lastInsertId => { row := reqmap, data := some lastInsertId, err := none }

/-! ## `ServiceUpdate` -/

/-- A row of the user table, with the columns `ServiceUpdate` reads or writes. -/
structure User where
  id : Nat
  password : String
  passwordV : Int
  status : Int
deriving DecidableEq, Repr

/-- The tabular store: the user table and the user-role association table. -/
structure Store where
  user : List User
  userRole : List UserRole
deriving DecidableEq, Repr

/-- The request parameters read by `ServiceUpdate`. -/
structure UpdateReq where
  id : Option Nat
  status : Option Int
  password : Option String
  passwordV : Option Int
  roleIdList : Option (List Int)
deriving DecidableEq, Repr

/-- The part of the request map `rMap` that reaches columns of the user table.
A key is `none` when it is missing from the map; a key that is present with a
nil value is not told apart from a missing one. -/
structure RMap where
  password : Option String
  passwordV : Option Int
  status : Option Int
deriving DecidableEq, Repr

/-- A call `v.CacheManager.Set(ctx, key, value, ttl)`. -/
structure CacheSet where
  key : String
  value : Int
  ttl : Nat
deriving DecidableEq, Repr

/-- The write statements `ServiceUpdate` issues inside its transaction. -/
inductive Stmt where
  | roleDelete (userId : Nat)
  | roleInsert (rows : List UserRole)
  | userUpdate (userId : Nat) (data : RMap)
deriving DecidableEq, Repr

/-- Whether a statement writes the user-role association table. -/
def Stmt.isRoleWrite : Stmt → Bool
  | Stmt.roleDelete _ => true
  | Stmt.roleInsert _ => true
  | Stmt.userUpdate _ _ => false

/-- Outcome of `ServiceUpdate`: the returned error, the store afterwards (the
store before the call when the transaction was rolled back), the cache writes
and the write statements issued, in order. -/
structure UpdateResult where
  err : Option Error
  store : Store
  cacheSets : List CacheSet
  stmts : List Stmt
deriving DecidableEq, Repr

/-- The `roleId` values of the association rows of `userId`
(`Where("userId = ?", userId).Fields("roleId").Array()`). -/
def roleIdsOf (tbl : List UserRole) (userId : Nat) : List Nat :=
  (tbl.filter (fun row => decide (row.userId = userId))).map UserRole.roleId

/-- `m.Update(rMap)` on the row selected by `id = userId`: the columns present
in `rMap` are overwritten. -/
def applyUpdate (rMap : RMap) (userId : Nat) (users : List User) : List User :=
  users.map (fun u =>
    if u.id = userId then
      { u with
        password := rMap.password.getD u.password
        passwordV := rMap.passwordV.getD u.passwordV
        status := rMap.status.getD u.status }
    else u)

/-- The role part of the transaction closure (the block guarded by
`!r.Get("roleIdList").IsNil()`), run on the role ids `roleIds` read before:
the error it ends with, the statements issued and the store it leaves.
`fails op` tells whether the store call `op` returns an error; an insert of an
empty row list is an error of the store as well.  The rows are inserted in the
order of the list that stands for the set; the code iterates the set in an
unspecified order. -/
def roleSync (fails : StoreOp → Bool) (userId : Nat) (roleIdList : Option (List Int))
    (roleIds : List Nat) (db : Store) : Option Error × List Stmt × Store :=
  match roleIdList with
  | none => (none, [], db)
  | some ints =>
    let inRoleIdSet := gset.NewFrom ints
    let roleIdsSet := gset.NewFrom (gconv_Ints roleIds)
    if gset.Size (gset.Diff roleIdsSet inRoleIdSet) ≠ 0
        ∨ gset.Size (gset.Diff inRoleIdSet roleIdsSet) ≠ 0 then
      let roleArray : List UserRole :=
        inRoleIdSet.map (fun v => { userId := userId, roleId := gconv_Uint v })
      if fails StoreOp.roleDelete = true then
        (some (Error.store StoreOp.roleDelete), [Stmt.roleDelete userId], db)
      else
        let db1 : Store :=
          { db with userRole := db.userRole.filter (fun row => decide (row.userId ≠ userId)) }
        if fails StoreOp.roleInsert = true ∨ roleArray = [] then
          (some (Error.store StoreOp.roleInsert),
            [Stmt.roleDelete userId, Stmt.roleInsert roleArray], db1)
        else
          (none, [Stmt.roleDelete userId, Stmt.roleInsert roleArray],
            { db1 with userRole := db1.userRole ++ roleArray })
    else (none, [], db)

/-- The body of the closure passed to `g.DB().Transaction`: the returned
error, the statements issued and the store as the closure leaves it.  Every
reason for which the store rejects the update of the user row, also an update
whose data hold no column of the table, is an error `fails StoreOp.userUpdate`. -/
def txBody (fails : StoreOp → Bool) (userId : Nat) (roleIdList : Option (List Int))
    (rMap : RMap) (db : Store) : Option Error × List Stmt × Store :=
  if fails StoreOp.roleArray = true then (some (Error.store StoreOp.roleArray), [], db)
  else
    let roleIds := roleIdsOf db.userRole userId
    match roleSync fails userId roleIdList roleIds db with
    | (some e, stmts, db2) => (some e, stmts, db2)
    | (none, stmts, db2) =>
      if fails StoreOp.userUpdate = true then
        (some (Error.store StoreOp.userUpdate), stmts ++ [Stmt.userUpdate userId rMap], db2)
      else
        (none, stmts ++ [Stmt.userUpdate userId rMap],
          { db2 with user := applyUpdate rMap userId db2.user })

/-- `g.DB().Transaction(ctx, f)`: commits what the closure did when it returns
nil, rolls everything back when it returns an error. -/
def Transaction (db : Store) (body : Store → Option Error × List Stmt × Store) :
    Option Error × List Stmt × Store :=
  match body db with
  | (some e, stmts, _) => (some e, stmts, db)
  | (none, stmts, db2) => (none, stmts, db2)

/-- The password step of `ServiceUpdate` (the `if`/`else` on `rPassword`):
the request map afterwards and the cache writes issued. -/
def passwordStep (rMap : RMap) (rPassword : String) (userInfo : User) (userId : Nat) :
    RMap × List CacheSet :=
  if rPassword ≠ "" ∧ rPassword ≠ userInfo.password then
    let passwordV := goInt (userInfo.passwordV + 1)
    ({ rMap with password := some (gmd5.Encrypt rPassword), passwordV := some passwordV },
      [{ key := "admin:passwordVersion:" ++ toString userId, value := passwordV, ttl := 0 }])
  else
    ({ rMap with password := none }, [])

/-- `ServiceUpdate(ctx, req)`.  `adminUserId` is `v.GetAdmin(ctx).UserId`,
`fails` tells which store calls return an error. -/
def ServiceUpdate (fails : StoreOp → Bool) (adminUserId : Nat) (r : UpdateReq) (db : Store) :
    UpdateResult :=
  let rMap : RMap := { password := r.password, passwordV := r.passwordV, status := r.status }
  let userId := r.id.getD adminUserId
  if fails StoreOp.userOne then
    { err := some (Error.store StoreOp.userOne), store := db, cacheSets := [], stmts := [] }
  else
    match db.user.find? (fun u => decide (u.id = userId)) with
    | none => { err := some (Error.New "用户不存在"), store := db, cacheSets := [], stmts := [] }
    | some userInfo =>
      if userId = 1 ∧ (r.status ≠ none ∧ r.status.getD 0 = 0) then
        { err := some (Error.New "禁止禁用超级管理员"), store := db, cacheSets := [], stmts := [] }
      else
        let rPassword := r.password.getD ""
        let changed := passwordStep rMap rPassword userInfo userId
        let tx := Transaction db (txBody fails userId r.roleIdList changed.1)
        { err := tx.1, store := tx.2.2, cacheSets := changed.2, stmts := tx.2.1 }

/-! ## Sample data -/

/-- A store with the superadmin, a second user whose stored password is the
digest of `"x"` and whose password version is 1, and three association rows. -/
def sampleStore : Store :=
  { user := [{ id := 1, password := "21232f297a57a5a743894a0e4a801fc3", passwordV := 1, status := 1 },
             { id := 2, password := "9dd4e461268c8034f5c8564e155c67a6", passwordV := 1, status := 1 }]
    userRole := [{ userId := 1, roleId := 1 }, { userId := 2, roleId := 2 },
                 { userId := 2, roleId := 3 }] }

/-- The second user of `sampleStore`. -/
def sampleUser : User :=
  { id := 2, password := "9dd4e461268c8034f5c8564e155c67a6", passwordV := 1, status := 1 }

/-- The superadmin row of `sampleStore`. -/
def sampleAdmin : User :=
  { id := 1, password := "21232f297a57a5a743894a0e4a801fc3", passwordV := 1, status := 1 }

/-- An update request for user `id` that carries only a password. -/
def passwordReq (id : Nat) (password : String) : UpdateReq :=
  { id := some id, status := none, password := some password, passwordV := none,
    roleIdList := none }

/-- An update request for user `id` that carries only a role id list. -/
def rolesReq (id : Nat) (roles : List Int) : UpdateReq :=
  { id := some id, status := none, password := none, passwordV := none,
    roleIdList := some roles }

/-- An update request without an id that sets only the status. -/
def statusReq (status : Int) : UpdateReq :=
  { id := none, status := some status, password := none, passwordV := none,
    roleIdList := none }

/-- No store call fails. -/
def noFault : StoreOp → Bool := fun _ => false

/-- Only the update of the user row fails. -/
def userUpdateFault : StoreOp → Bool := fun op => decide (op = StoreOp.userUpdate)

end BaseSysUserService

open BaseSysUserService

set_option maxRecDepth 100000

/-! ## Test vectors of the digest -/

/-- The digest of the empty string. -/
theorem gmd5_EncryptString_empty :
    gmd5.EncryptString "" = "d41d8cd98f00b204e9800998ecf8427e" := by decide

/-- The digest of `"abc"`. -/
theorem gmd5_EncryptString_abc :
    gmd5.EncryptString "abc" = "900150983cd24fb0d6963f7d28e17f72" := by decide

/-! ## The delete hooks -/

/-- The first element of an array, and whether there is one. -/
theorem garray_Get_zero (a : List Int) :
    garray.Get a 0 = match a with
      | [] => (0, false)
      | x :: _ => (x, true) := by
  cases a <;> rfl

/-- Unfolding of `ModifyBefore` on the `Delete` method. -/
theorem ModifyBefore_delete_eq (ids : List Int) :
    ModifyBefore "Delete" ids =
      if ids = [1] then { err := some (Error.New "超级管理员不能删除"), ids := none }
      else { err := none, ids := some (ids.erase 1) } := by
  match ids with
  | [] => simp [ModifyBefore, garray.Get, garray.RemoveValue]
  | [x] =>
    by_cases hx : x = 1
    · subst hx
      simp [ModifyBefore, garray.Get, superAdminId]
    · simp [ModifyBefore, garray.Get, garray.RemoveValue, superAdminId, hx]
  | x :: y :: rest =>
    simp [ModifyBefore, garray.Get, garray.RemoveValue]

/-- C1 (as stated, refuted): the batch `[1, 1]` is non-empty and holds only the
superadmin id, yet `ModifyBefore` returns no error and stores `[1]` as the ids
of the deletion. -/
theorem C1_counterexample_pair_of_superadmin_ids :
    ([1, 1] : List Int) ≠ [] ∧ (∀ x ∈ ([1, 1] : List Int), x = 1) ∧
      ModifyBefore "Delete" [1, 1] = { err := none, ids := some [1] } := by
  decide

/-- C1 (amended): `ModifyBefore` on `Delete` returns the "superadmin cannot be
deleted" error exactly for the one-element batch `[1]`, returns no error for
every other batch, and on `[1]` it stores no ids for the deletion. -/
theorem C1_ModifyBefore_rejects_exactly_the_single_superadmin_batch (ids : List Int) :
    ((ModifyBefore "Delete" ids).err = some (Error.New "超级管理员不能删除") ↔ ids = [1]) ∧
    ((ModifyBefore "Delete" ids).err = none ↔ ids ≠ [1]) ∧
    (ModifyBefore "Delete" [1]).ids = none := by
  rw [ModifyBefore_delete_eq]
  refine ⟨?_, ?_, by decide⟩
  · by_cases h : ids = [1] <;> simp [h]
  · by_cases h : ids = [1] <;> simp [h]

/-- C2 (code evaluated at the failing input): on the batch `[1, 1, 2]`, which
holds the superadmin id together with another id, `ModifyBefore` returns no
error and stores `[1, 2]`: the superadmin id is still among the ids handed to
the deletion. -/
theorem C2_ModifyBefore_keeps_second_superadmin_id :
    ModifyBefore "Delete" [1, 1, 2] = { err := none, ids := some [1, 2] } ∧
      (1 : Int) ∈ [1, 2] := by
  decide

/-- Removing the first occurrence of the superadmin id removes every
occurrence when there is at most one. -/
theorem erase_eq_filter_of_count_le_one (ids : List Int) (hcount : ids.count 1 ≤ 1) :
    ids.erase 1 = ids.filter (fun x => decide (x ≠ 1)) := by
  induction ids with
  | nil => rfl
  | cons x xs ih =>
    by_cases hx : x = 1
    · subst hx
      have hxs : xs.count 1 = 0 := by
        simp only [List.count_cons_self] at hcount
        omega
      have hnot : (1 : Int) ∉ xs := List.count_eq_zero.mp hxs
      have hfil : xs.filter (fun x => decide (x ≠ 1)) = xs := by
        apply List.filter_eq_self.mpr
        intro a ha
        have : a ≠ 1 := fun h => hnot (h ▸ ha)
        simpa using this
      have hhead : (1 :: xs).filter (fun x => decide (x ≠ 1)) = xs.filter (fun x => decide (x ≠ 1)) :=
        List.filter_cons_of_neg (by simp)
      rw [List.erase_cons_head, hhead, hfil]
    · have hc : xs.count 1 ≤ 1 := by
        rw [List.count_cons_of_ne (Ne.symm hx)] at hcount
        exact hcount
      rw [List.erase_cons_tail (by simpa using hx), List.filter_cons_of_pos (by simpa using hx),
        ih hc]

/-- When the superadmin id occurs at most once in a batch other than `[1]`,
the ids stored by `ModifyBefore` are the batch without the superadmin id, in
the same order and multiplicity. -/
theorem ModifyBefore_strips_single_occurrence (ids : List Int)
    (hcount : ids.count 1 ≤ 1) (hne : ids ≠ [1]) :
    ModifyBefore "Delete" ids = { err := none, ids := some (ids.filter (fun x => decide (x ≠ 1))) } := by
  rw [ModifyBefore_delete_eq, if_neg hne, erase_eq_filter_of_count_le_one ids hcount]

/-- C9 (code evaluated at the failing input): with ids `[1, 1, 2]` the hook
strips only the first superadmin id and deletes the association rows of users
1 and 2; the row `(1, 7)` of the superadmin is gone. -/
theorem C9_ModifyAfter_deletes_superadmin_roles :
    ModifyAfter "Delete" [1, 1, 2] [⟨1, 7⟩, ⟨2, 3⟩, ⟨3, 4⟩] = [⟨3, 4⟩] := by
  decide

/-- Unfolding of `ModifyAfter` on `Delete`: a row survives exactly when its
user id is not among the ids left after removing the first superadmin id. -/
theorem ModifyAfter_delete_mem (ids : List Int) (tbl : List UserRole) (row : UserRole) :
    row ∈ ModifyAfter "Delete" ids tbl ↔ row ∈ tbl ∧ (row.userId : Int) ∉ ids.erase 1 := by
  simp [ModifyAfter, WhereInUserIdDelete, garray.RemoveValue]

/-! ## `ServiceAdd` -/

/-- C10 (code evaluated at the failing input): the request carries the
password `""`.  `IsNil()` is false for a present empty string, so the row
handed to the insert carries the digest of the empty string and not the empty
password as supplied. -/
theorem C10_ServiceAdd_hashes_empty_password :
    (ServiceAdd { password := some "", fields := [("username", "bob")] } (some 7)).row
        = { password := some "d41d8cd98f00b204e9800998ecf8427e",
            fields := [("username", "bob")] } ∧
      (ServiceAdd { password := some "", fields := [("username", "bob")] } (some 7)).row.password
        ≠ some "" := by
  decide

/-- Unfolding of `ServiceAdd`: the row handed to the insert. -/
theorem ServiceAdd_row_eq (reqmap : AddMap) (inserted : Option Int) :
    (ServiceAdd reqmap inserted).row =
      { password := reqmap.password.map gmd5.EncryptString, fields := reqmap.fields } := by
  cases reqmap with
  | mk password fields =>
    cases password <;> cases inserted <;> rfl

/-- A present password reaches the insert as its digest; an absent password
leaves the request map as supplied. -/
theorem ServiceAdd_nonempty_or_absent (fields : List (String × String)) (inserted : Option Int)
    (p : String) :
    (ServiceAdd { password := some p, fields := fields } inserted).row.password
        = some (gmd5.EncryptString p) ∧
      (ServiceAdd { password := none, fields := fields } inserted).row
        = { password := none, fields := fields } := by
  cases inserted <;> exact ⟨rfl, rfl⟩

/-! ## `ServiceUpdate`: unfolding lemmas -/

/-- The status test of the superadmin guard holds exactly for a present status 0. -/
theorem status_guard_iff (status : Option Int) :
    (status ≠ none ∧ status.getD 0 = 0) ↔ status = some 0 := by
  cases status <;> simp

/-- The run of `ServiceUpdate` once the user row was read and the superadmin
guard has passed. -/
theorem ServiceUpdate_run (fails : StoreOp → Bool) (adminUserId : Nat) (r : UpdateReq)
    (db : Store) (userInfo : User) (hread : fails StoreOp.userOne = false)
    (hfound : db.user.find? (fun u => decide (u.id = r.id.getD adminUserId)) = some userInfo)
    (hguard : ¬ (r.id.getD adminUserId = 1 ∧ r.status = some 0)) :
    ServiceUpdate fails adminUserId r db =
      { err := (Transaction db (txBody fails (r.id.getD adminUserId) r.roleIdList
            (passwordStep { password := r.password, passwordV := r.passwordV, status := r.status }
              (r.password.getD "") userInfo (r.id.getD adminUserId)).1)).1
        store := (Transaction db (txBody fails (r.id.getD adminUserId) r.roleIdList
            (passwordStep { password := r.password, passwordV := r.passwordV, status := r.status }
              (r.password.getD "") userInfo (r.id.getD adminUserId)).1)).2.2
        cacheSets := (passwordStep { password := r.password, passwordV := r.passwordV, status := r.status }
              (r.password.getD "") userInfo (r.id.getD adminUserId)).2
        stmts := (Transaction db (txBody fails (r.id.getD adminUserId) r.roleIdList
            (passwordStep { password := r.password, passwordV := r.passwordV, status := r.status }
              (r.password.getD "") userInfo (r.id.getD adminUserId)).1)).2.1 } := by
  have hg : ¬ (r.id.getD adminUserId = 1 ∧ (r.status ≠ none ∧ r.status.getD 0 = 0)) := by
    rw [status_guard_iff]
    exact hguard
  unfold ServiceUpdate
  simp only [hread, hfound, if_neg hg]
  simp

/-- Every error of the role part is an error of a store call. -/
theorem roleSync_err_store (fails : StoreOp → Bool) (userId : Nat) (roleIdList : Option (List Int))
    (roleIds : List Nat) (db : Store) (e : Error)
    (h : (roleSync fails userId roleIdList roleIds db).1 = some e) : ∃ op, e = Error.store op := by
  unfold roleSync at h
  cases roleIdList with
  | none => simp at h
  | some ints =>
    simp only at h
    split_ifs at h <;> simp at h <;> exact ⟨_, h.symm⟩

/-- Every error of the transaction closure is an error of a store call. -/
theorem txBody_err_store (fails : StoreOp → Bool) (userId : Nat) (roleIdList : Option (List Int))
    (rMap : RMap) (db : Store) (e : Error)
    (h : (txBody fails userId roleIdList rMap db).1 = some e) : ∃ op, e = Error.store op := by
  unfold txBody at h
  by_cases h1 : fails StoreOp.roleArray = true
  · rw [if_pos h1] at h
    exact ⟨_, (Option.some.inj h).symm⟩
  · rw [if_neg h1] at h
    simp only at h
    rcases hrs : roleSync fails userId roleIdList (roleIdsOf db.userRole userId) db with ⟨e2, st, d⟩
    rw [hrs] at h
    cases e2 with
    | some e3 =>
      simp only at h
      have := roleSync_err_store fails userId roleIdList (roleIdsOf db.userRole userId) db e3
        (by rw [hrs])
      rw [← Option.some.inj h]
      exact this
    | none =>
      simp only at h
      by_cases h2 : fails StoreOp.userUpdate = true
      · rw [if_pos h2] at h
        exact ⟨_, (Option.some.inj h).symm⟩
      · rw [if_neg h2] at h
        exact absurd h (by simp)

/-- The error of a transaction is the error of its closure. -/
theorem Transaction_err (db : Store) (body : Store → Option Error × List Stmt × Store) :
    (Transaction db body).1 = (body db).1 := by
  unfold Transaction
  rcases body db with ⟨e, st, d⟩
  cases e <;> rfl

/-- The statements of a transaction are the statements of its closure. -/
theorem Transaction_stmts (db : Store) (body : Store → Option Error × List Stmt × Store) :
    (Transaction db body).2.1 = (body db).2.1 := by
  unfold Transaction
  rcases body db with ⟨e, st, d⟩
  cases e <;> rfl

/-- The store after a transaction: the store before when the closure failed,
otherwise the store the closure left. -/
theorem Transaction_store (db : Store) (body : Store → Option Error × List Stmt × Store) :
    (Transaction db body).2.2 = if (body db).1 = none then (body db).2.2 else db := by
  unfold Transaction
  rcases body db with ⟨e, st, d⟩
  cases e <;> simp

/-! ## `ServiceUpdate`: the superadmin guard -/

/-- C8: for an existing target user, `ServiceUpdate` returns the "disabling
the superadmin is forbidden" error if and only if the resolved target id is 1
and the status parameter is present with value 0. -/
theorem C8_superadmin_guard_iff (fails : StoreOp → Bool) (adminUserId : Nat) (r : UpdateReq)
    (db : Store) (userInfo : User) (hread : fails StoreOp.userOne = false)
    (hfound : db.user.find? (fun u => decide (u.id = r.id.getD adminUserId)) = some userInfo) :
    (ServiceUpdate fails adminUserId r db).err = some (Error.New "禁止禁用超级管理员") ↔
      (r.id.getD adminUserId = 1 ∧ r.status = some 0) := by
  by_cases hg : r.id.getD adminUserId = 1 ∧ r.status = some 0
  · have hg2 : r.id.getD adminUserId = 1 ∧ (r.status ≠ none ∧ r.status.getD 0 = 0) := by
      rw [status_guard_iff]
      exact hg
    constructor
    · intro _
      exact hg
    · intro _
      unfold ServiceUpdate
      simp only [hread, hfound, if_pos hg2]
      simp
  · constructor
    · intro h
      rw [ServiceUpdate_run fails adminUserId r db userInfo hread hfound hg] at h
      simp only [Transaction_err] at h
      obtain ⟨op, hop⟩ := txBody_err_store _ _ _ _ _ _ h
      exact absurd hop (by simp)
    · intro h
      exact absurd h hg

/-- C8 witness: disabling the superadmin through the session default id. -/
theorem C8_superadmin_guard_iff_witness :
    (ServiceUpdate noFault 1 (statusReq 0) sampleStore).err = some (Error.New "禁止禁用超级管理员") ↔
      ((statusReq 0).id.getD 1 = 1 ∧ (statusReq 0).status = some 0) :=
  C8_superadmin_guard_iff noFault 1 (statusReq 0) sampleStore sampleAdmin rfl (by decide)

/-- Disabling a user other than the superadmin passes the guard and, with a
working store, succeeds. -/
theorem ServiceUpdate_disable_other_user :
    (ServiceUpdate noFault 2 (statusReq 0) sampleStore).err = none := by
  decide

/-! ## `ServiceUpdate`: password change and the cache -/

/-- C5 (code evaluated at the failing input): the stored password of user 2 is
the digest of `"x"` with version 1; an update with the same plaintext `"x"`
keeps the password in the update data, raises the version to 2 and writes 2
to the cache. -/
theorem C5_same_plaintext_bumps_version :
    gmd5.EncryptString "x" = sampleUser.password ∧
      ServiceUpdate noFault 1 (passwordReq 2 "x") sampleStore =
        { err := none
          store := { sampleStore with
            user := [sampleAdmin, { sampleUser with passwordV := 2 }] }
          cacheSets := [{ key := "admin:passwordVersion:2", value := 2, ttl := 0 }]
          stmts := [Stmt.userUpdate 2
            { password := some "9dd4e461268c8034f5c8564e155c67a6", passwordV := some 2,
              status := none }] } := by
  decide

/-- C6 (code evaluated at the failing input): the requested password is the
text of the stored digest itself; its digest differs from the stored one, yet
the password is dropped from the update data, the version stays 1 and nothing
is written to the cache. -/
theorem C6_password_equal_to_stored_digest_is_dropped :
    gmd5.EncryptString "9dd4e461268c8034f5c8564e155c67a6" ≠ sampleUser.password ∧
      ServiceUpdate noFault 1 (passwordReq 2 "9dd4e461268c8034f5c8564e155c67a6") sampleStore =
        { err := none
          store := sampleStore
          cacheSets := []
          stmts := [Stmt.userUpdate 2 { password := none, passwordV := none, status := none }] } := by
  decide

/-- The sibling path of `ServiceUpdate`: a present, empty password is dropped
from the update data; it is neither hashed nor written. -/
theorem ServiceUpdate_empty_password_dropped :
    ServiceUpdate noFault 1 (passwordReq 2 "") sampleStore =
      { err := none
        store := sampleStore
        cacheSets := []
        stmts := [Stmt.userUpdate 2 { password := none, passwordV := none, status := none }] } := by
  decide

/-- C7 (as stated, refuted): the update of the user row fails, the transaction
is rolled back and an error is returned, yet the cache key of user 2 has been
written with version 2. -/
theorem C7_counterexample_cache_written_when_transaction_fails :
    (ServiceUpdate userUpdateFault 1 (passwordReq 2 "y") sampleStore).err
        = some (Error.store StoreOp.userUpdate) ∧
      (ServiceUpdate userUpdateFault 1 (passwordReq 2 "y") sampleStore).store = sampleStore ∧
      (ServiceUpdate userUpdateFault 1 (passwordReq 2 "y") sampleStore).cacheSets
        = [{ key := "admin:passwordVersion:2", value := 2, ttl := 0 }] := by
  decide

/-- C7 (amended): the cache writes of `ServiceUpdate` do not depend on the
outcome of the transaction.  For the same request and store, two runs in which
the read of the user row succeeds issue the same cache writes, whichever store
calls of the transaction fail in either of them; and a run that returns an
error leaves the store as it was, the cache write not being undone. -/
theorem C7_cache_write_independent_of_transaction (fails fails2 : StoreOp → Bool)
    (adminUserId : Nat) (r : UpdateReq) (db : Store)
    (hread : fails StoreOp.userOne = false) (hread2 : fails2 StoreOp.userOne = false) :
    (ServiceUpdate fails adminUserId r db).cacheSets =
        (ServiceUpdate fails2 adminUserId r db).cacheSets ∧
      ((ServiceUpdate fails adminUserId r db).err = none ∨
        (ServiceUpdate fails adminUserId r db).store = db) := by
  cases hfound : db.user.find? (fun u => decide (u.id = r.id.getD adminUserId)) with
  | none =>
    unfold ServiceUpdate
    simp [hread, hread2, hfound]
  | some userInfo =>
    by_cases hg : r.id.getD adminUserId = 1 ∧ r.status = some 0
    · have hg2 : r.id.getD adminUserId = 1 ∧ (r.status ≠ none ∧ r.status.getD 0 = 0) := by
        rw [status_guard_iff]
        exact hg
      unfold ServiceUpdate
      simp only [hread, hread2, hfound, if_pos hg2]
      simp
    · rw [ServiceUpdate_run fails adminUserId r db userInfo hread hfound hg,
        ServiceUpdate_run fails2 adminUserId r db userInfo hread2 hfound hg]
      refine ⟨rfl, ?_⟩
      simp only [Transaction_err, Transaction_store]
      by_cases h : (txBody fails (r.id.getD adminUserId) r.roleIdList
          (passwordStep { password := r.password, passwordV := r.passwordV, status := r.status }
            (r.password.getD "") userInfo (r.id.getD adminUserId)).1 db).1 = none
      · exact Or.inl h
      · exact Or.inr (if_neg h)

/-- C7 witness: the run in which the update of the user row fails issues the
cache writes of the run in which no store call fails. -/
theorem C7_cache_write_independent_of_transaction_witness :
    (ServiceUpdate userUpdateFault 1 (passwordReq 2 "y") sampleStore).cacheSets =
        (ServiceUpdate noFault 1 (passwordReq 2 "y") sampleStore).cacheSets ∧
      ((ServiceUpdate userUpdateFault 1 (passwordReq 2 "y") sampleStore).err = none ∨
        (ServiceUpdate userUpdateFault 1 (passwordReq 2 "y") sampleStore).store = sampleStore) :=
  C7_cache_write_independent_of_transaction userUpdateFault noFault 1 (passwordReq 2 "y")
    sampleStore (by decide) (by decide)

/-! ## `ServiceUpdate`: the role list -/

/-- A set difference is empty exactly when the first set lies in the second. -/
theorem gset_Diff_Size_eq_zero_iff (s o : List Int) :
    gset.Size (gset.Diff s o) = 0 ↔ ∀ x ∈ s, x ∈ o := by
  unfold gset.Size gset.Diff
  rw [List.length_eq_zero, List.filter_eq_nil_iff]
  simp

/-- The test of `ServiceUpdate` for "the requested roles differ from the
current ones" is false exactly when both lists have the same members. -/
theorem roles_changed_iff (ints cur : List Int) :
    (gset.Size (gset.Diff (gset.NewFrom cur) (gset.NewFrom ints)) ≠ 0
        ∨ gset.Size (gset.Diff (gset.NewFrom ints) (gset.NewFrom cur)) ≠ 0) ↔
      ¬ (∀ x : Int, x ∈ ints ↔ x ∈ cur) := by
  have h1 := gset_Diff_Size_eq_zero_iff (gset.NewFrom cur) (gset.NewFrom ints)
  have h2 := gset_Diff_Size_eq_zero_iff (gset.NewFrom ints) (gset.NewFrom cur)
  simp only [gset.NewFrom, List.mem_dedup] at h1 h2
  constructor
  · intro h hall
    rcases h with h | h
    · exact h (h1.mpr (fun x hx => (hall x).mpr hx))
    · exact h (h2.mpr (fun x hx => (hall x).mp hx))
  · intro h
    by_contra hcon
    push_neg at hcon
    exact h (fun x => ⟨h2.mp hcon.2 x, h1.mp hcon.1 x⟩)

/-- The role part does nothing when the role list is absent or has the same
members as the role ids read. -/
theorem roleSync_noop (fails : StoreOp → Bool) (userId : Nat) (roleIdList : Option (List Int))
    (roleIds : List Nat) (db : Store)
    (h : roleIdList = none ∨
      ∃ ints, roleIdList = some ints ∧ ∀ x : Int, x ∈ ints ↔ x ∈ gconv_Ints roleIds) :
    roleSync fails userId roleIdList roleIds db = (none, [], db) := by
  rcases h with h | ⟨ints, h, hall⟩
  · subst h
    rfl
  · subst h
    unfold roleSync
    simp only
    rw [if_neg]
    rw [roles_changed_iff]
    exact fun hn => hn hall

/-- The outcome of a role part that ends without error: either the lists had
the same members and the table is untouched, or the rows of the user were
replaced by one row per requested id. -/
theorem roleSync_ok (fails : StoreOp → Bool) (userId : Nat) (ints : List Int)
    (roleIds : List Nat) (db : Store)
    (h : (roleSync fails userId (some ints) roleIds db).1 = none) :
    ((roleSync fails userId (some ints) roleIds db).2.2.userRole = db.userRole ∧
        ∀ x : Int, x ∈ ints ↔ x ∈ gconv_Ints roleIds) ∨
      (roleSync fails userId (some ints) roleIds db).2.2.userRole =
        db.userRole.filter (fun row => decide (row.userId ≠ userId)) ++
          (gset.NewFrom ints).map (fun v => { userId := userId, roleId := gconv_Uint v }) := by
  unfold roleSync at h ⊢
  simp only at h ⊢
  by_cases hch : gset.Size (gset.Diff (gset.NewFrom (gconv_Ints roleIds)) (gset.NewFrom ints)) ≠ 0
        ∨ gset.Size (gset.Diff (gset.NewFrom ints) (gset.NewFrom (gconv_Ints roleIds))) ≠ 0
  · rw [if_pos hch] at h ⊢
    by_cases hd : fails StoreOp.roleDelete = true
    · rw [if_pos hd] at h
      exact absurd h (by simp)
    · rw [if_neg hd] at h ⊢
      split_ifs at h ⊢ with hi
      exact Or.inr rfl
  · rw [if_neg hch]
    refine Or.inl ⟨rfl, ?_⟩
    rw [roles_changed_iff] at hch
    exact not_not.mp hch

/-- The closure of the transaction leaves the association table as the role
part left it, and fails when the role part fails. -/
theorem txBody_roles (fails : StoreOp → Bool) (userId : Nat) (roleIdList : Option (List Int))
    (rMap : RMap) (db : Store) (h : (txBody fails userId roleIdList rMap db).1 = none) :
    (roleSync fails userId roleIdList (roleIdsOf db.userRole userId) db).1 = none ∧
      (txBody fails userId roleIdList rMap db).2.2.userRole =
        (roleSync fails userId roleIdList (roleIdsOf db.userRole userId) db).2.2.userRole := by
  unfold txBody at h ⊢
  by_cases h1 : fails StoreOp.roleArray = true
  · rw [if_pos h1] at h
    exact absurd h (by simp)
  · rw [if_neg h1] at h ⊢
    simp only at h ⊢
    rcases hrs : roleSync fails userId roleIdList (roleIdsOf db.userRole userId) db with ⟨e2, st, d⟩
    rw [hrs] at h
    cases e2 with
    | some e3 => exact absurd h (by simp)
    | none =>
      simp only at h ⊢
      by_cases h2 : fails StoreOp.userUpdate = true
      · rw [if_pos h2] at h
        exact absurd h (by simp)
      · rw [if_neg h2]
        refine ⟨?_, ?_⟩ <;> first | rfl | trivial

/-- The statements and the association table of the closure when the role
part does nothing. -/
theorem txBody_of_roleSync_noop (fails : StoreOp → Bool) (userId : Nat)
    (roleIdList : Option (List Int)) (rMap : RMap) (db : Store)
    (h : roleSync fails userId roleIdList (roleIdsOf db.userRole userId) db = (none, [], db)) :
    (txBody fails userId roleIdList rMap db).2.1.filter Stmt.isRoleWrite = [] ∧
      (txBody fails userId roleIdList rMap db).2.2.userRole = db.userRole := by
  unfold txBody
  by_cases h1 : fails StoreOp.roleArray = true
  · rw [if_pos h1]
    exact ⟨rfl, rfl⟩
  · rw [if_neg h1]
    simp only [h]
    by_cases h2 : fails StoreOp.userUpdate = true
    · rw [if_pos h2]
      exact ⟨rfl, rfl⟩
    · rw [if_neg h2]
      exact ⟨rfl, rfl⟩

/-- The 64-bit conversions are inverse to each other on the range of a Go `int`. -/
theorem gconv_Int_Uint (v : Int)
    (h : -9223372036854775808 ≤ v ∧ v < 9223372036854775808) :
    gconv_Int (gconv_Uint v) = v := by
  unfold gconv_Int gconv_Uint goInt
  rw [Int.toNat_of_nonneg (Int.emod_nonneg _ (by norm_num))]
  omega

/-- The role ids of a user after the rows of the user were replaced. -/
theorem roleIdsOf_replaced (tbl : List UserRole) (userId : Nat) (ints : List Int) :
    roleIdsOf (tbl.filter (fun row => decide (row.userId ≠ userId)) ++
        ints.map (fun v => { userId := userId, roleId := gconv_Uint v })) userId =
      ints.map gconv_Uint := by
  unfold roleIdsOf
  rw [List.filter_append, List.map_append]
  have h1 : (tbl.filter (fun row => decide (row.userId ≠ userId))).filter
      (fun row => decide (row.userId = userId)) = [] := by
    rw [List.filter_eq_nil_iff]
    intro row hrow
    have := (List.mem_filter.mp hrow).2
    simpa using this
  have h2 : (ints.map (fun v => ({ userId := userId, roleId := gconv_Uint v } : UserRole))).filter
      (fun row => decide (row.userId = userId)) =
      ints.map (fun v => ({ userId := userId, roleId := gconv_Uint v } : UserRole)) := by
    rw [List.filter_eq_self]
    intro row hrow
    obtain ⟨v, _, hv⟩ := List.mem_map.mp hrow
    subst hv
    simp
  rw [h1, h2, List.map_nil, List.nil_append, List.map_map]
  rfl

/-- C4: `ServiceUpdate` issues no delete and no insert on the association
table, and leaves that table as it was, whenever the role list parameter is
absent or has the same members as the current role ids of the user, whatever
the order or repetition of ids in the list. -/
theorem C4_no_role_write_when_roles_unchanged (fails : StoreOp → Bool) (adminUserId : Nat)
    (r : UpdateReq) (db : Store)
    (h : r.roleIdList = none ∨ ∃ ints, r.roleIdList = some ints ∧
      ∀ x : Int, x ∈ ints ↔ x ∈ gconv_Ints (roleIdsOf db.userRole (r.id.getD adminUserId))) :
    (ServiceUpdate fails adminUserId r db).stmts.filter Stmt.isRoleWrite = [] ∧
      (ServiceUpdate fails adminUserId r db).store.userRole = db.userRole := by
  by_cases hread : fails StoreOp.userOne = true
  · unfold ServiceUpdate
    simp [hread]
  · have hread2 : fails StoreOp.userOne = false := by simpa using hread
    cases hfound : db.user.find? (fun u => decide (u.id = r.id.getD adminUserId)) with
    | none =>
      unfold ServiceUpdate
      simp [hread2, hfound]
    | some userInfo =>
      by_cases hg : r.id.getD adminUserId = 1 ∧ r.status = some 0
      · have hg2 : r.id.getD adminUserId = 1 ∧ (r.status ≠ none ∧ r.status.getD 0 = 0) := by
          rw [status_guard_iff]
          exact hg
        unfold ServiceUpdate
        simp only [hread2, hfound, if_pos hg2]
        simp
      · rw [ServiceUpdate_run fails adminUserId r db userInfo hread2 hfound hg]
        simp only [Transaction_stmts, Transaction_store]
        have hno := roleSync_noop fails (r.id.getD adminUserId) r.roleIdList
          (roleIdsOf db.userRole (r.id.getD adminUserId)) db h
        have htx := txBody_of_roleSync_noop fails (r.id.getD adminUserId) r.roleIdList
          (passwordStep { password := r.password, passwordV := r.passwordV, status := r.status }
            (r.password.getD "") userInfo (r.id.getD adminUserId)).1 db hno
        refine ⟨htx.1, ?_⟩
        split_ifs
        · exact htx.2
        · rfl

/-- C4 witness: user 2 holds the roles 2 and 3; the list `[3, 2, 3]` has the
same members. -/
theorem C4_no_role_write_when_roles_unchanged_witness :
    (ServiceUpdate noFault 1 (rolesReq 2 [3, 2, 3]) sampleStore).stmts.filter Stmt.isRoleWrite = [] ∧
      (ServiceUpdate noFault 1 (rolesReq 2 [3, 2, 3]) sampleStore).store.userRole
        = sampleStore.userRole :=
  C4_no_role_write_when_roles_unchanged noFault 1 (rolesReq 2 [3, 2, 3]) sampleStore
    (Or.inr ⟨[3, 2, 3], rfl, by
      have hcur : gconv_Ints (roleIdsOf sampleStore.userRole ((rolesReq 2 [3, 2, 3]).id.getD 1))
          = [2, 3] := by decide
      rw [hcur]
      intro x
      simp only [List.mem_cons, List.mem_singleton, List.not_mem_nil, or_false]
      tauto⟩)

/-- Reading back role ids written from Go `int` values gives the values. -/
theorem gconv_Ints_map_Uint (l : List Int)
    (h : ∀ v ∈ l, -9223372036854775808 ≤ v ∧ v < 9223372036854775808) :
    gconv_Ints (l.map gconv_Uint) = l := by
  induction l with
  | nil => rfl
  | cons a t ih =>
    have ha := gconv_Int_Uint a (h a (List.mem_cons_self a t))
    have ht := ih (fun v hv => h v (List.mem_cons_of_mem a hv))
    unfold gconv_Ints at ht ⊢
    rw [List.map_cons, List.map_cons, ha, ht]

/-- The unsigned conversion is injective on the range of a Go `int`. -/
theorem gconv_Uint_inj (x y : Int)
    (hx : -9223372036854775808 ≤ x ∧ x < 9223372036854775808)
    (hy : -9223372036854775808 ≤ y ∧ y < 9223372036854775808)
    (hxy : gconv_Uint x = gconv_Uint y) : x = y := by
  have h1 := gconv_Int_Uint x hx
  have h2 := gconv_Int_Uint y hy
  rw [hxy] at h1
  exact h1.symm.trans h2

/-- C3: when `ServiceUpdate` succeeds on a request that carries a role id list
(of Go `int` values) for a user whose association rows hold each role once,
the role ids of the user afterwards are exactly the ids in the list, each held
once: no former role outside the list remains. -/
theorem C3_roles_equal_request_after_update (fails : StoreOp → Bool) (adminUserId : Nat)
    (r : UpdateReq) (db : Store) (ints : List Int) (hR : r.roleIdList = some ints)
    (hint : ∀ x ∈ ints, -9223372036854775808 ≤ x ∧ x < 9223372036854775808)
    (hset : (roleIdsOf db.userRole (r.id.getD adminUserId)).Nodup)
    (hok : (ServiceUpdate fails adminUserId r db).err = none) :
    (roleIdsOf (ServiceUpdate fails adminUserId r db).store.userRole (r.id.getD adminUserId)).Nodup ∧
      ∀ x : Int,
        x ∈ gconv_Ints (roleIdsOf (ServiceUpdate fails adminUserId r db).store.userRole
          (r.id.getD adminUserId)) ↔ x ∈ ints := by
  by_cases hread : fails StoreOp.userOne = true
  · unfold ServiceUpdate at hok
    simp [hread] at hok
  · have hread2 : fails StoreOp.userOne = false := by simpa using hread
    cases hfound : db.user.find? (fun u => decide (u.id = r.id.getD adminUserId)) with
    | none =>
      unfold ServiceUpdate at hok
      simp [hread2, hfound] at hok
    | some userInfo =>
      by_cases hg : r.id.getD adminUserId = 1 ∧ r.status = some 0
      · have hg2 : r.id.getD adminUserId = 1 ∧ (r.status ≠ none ∧ r.status.getD 0 = 0) := by
          rw [status_guard_iff]
          exact hg
        unfold ServiceUpdate at hok
        simp only [hread2, hfound, if_pos hg2] at hok
        simp at hok
      · rw [ServiceUpdate_run fails adminUserId r db userInfo hread2 hfound hg] at hok ⊢
        simp only [Transaction_err] at hok
        simp only [Transaction_store, if_pos hok]
        obtain ⟨hrs, htbl⟩ := txBody_roles _ _ _ _ _ hok
        rw [htbl]
        rw [hR] at hrs ⊢
        rcases roleSync_ok _ _ _ _ _ hrs with ⟨hsame, hmem⟩ | hrep
        · rw [hsame]
          exact ⟨hset, fun x => (hmem x).symm⟩
        · rw [hrep, roleIdsOf_replaced]
          have hrange : ∀ v ∈ gset.NewFrom ints,
              -9223372036854775808 ≤ v ∧ v < 9223372036854775808 :=
            fun v hv => hint v (List.mem_dedup.mp hv)
          constructor
          · exact List.Nodup.map_on
              (fun x hx y hy hxy => gconv_Uint_inj x y (hrange x hx) (hrange y hy) hxy)
              (List.nodup_dedup ints)
          · intro x
            rw [gconv_Ints_map_Uint (gset.NewFrom ints) hrange]
            exact List.mem_dedup

/-- C3 witness: user 2 holds the roles 2 and 3; a successful update with the
list `[3, 4]` leaves exactly the roles 3 and 4. -/
theorem C3_roles_equal_request_after_update_witness :
    (roleIdsOf (ServiceUpdate noFault 1 (rolesReq 2 [3, 4]) sampleStore).store.userRole
        ((rolesReq 2 [3, 4]).id.getD 1)).Nodup ∧
      ∀ x : Int,
        x ∈ gconv_Ints (roleIdsOf (ServiceUpdate noFault 1 (rolesReq 2 [3, 4]) sampleStore).store.userRole
          ((rolesReq 2 [3, 4]).id.getD 1)) ↔ x ∈ [3, 4] :=
  C3_roles_equal_request_after_update noFault 1 (rolesReq 2 [3, 4]) sampleStore [3, 4] rfl
    (by decide) (by decide) (by decide)

/-- The round trip of the specification: user 2 holds the roles 2 and 3, is
updated with `[3, 4]`, and holds 3 and 4 afterwards, whatever the order of the
rows; the row of the superadmin is untouched. -/
theorem ServiceUpdate_round_trip :
    List.Perm (ServiceUpdate noFault 1 (rolesReq 2 [3, 4]) sampleStore).store.userRole
      [{ userId := 1, roleId := 1 }, { userId := 2, roleId := 3 }, { userId := 2, roleId := 4 }] := by
  decide
